import Mathlib

/-!
Shallow embedding of the EchoMux media-processing job engine
(`src/echomux/worker.py` and `src/echomux/utils.py`) together with proofs
about its season/episode extraction, companion matching, command building,
filename templating, and the worker's trace semantics (progress, errors,
cancellation).
-/

namespace EchoMux

/-! ## Character primitives

Python's `\d` on the ASCII range is `Char.isDigit`; `\s` is the ASCII
whitespace class; `re.IGNORECASE` comparisons are modelled by comparing
lowercased characters. -/

def digitVal (c : Char) : Nat := c.toNat - '0'.toNat

def isPySpace (c : Char) : Bool :=
  c = ' ' || c = '\t' || c = '\n' || c = '\r' || c = '\x0c' || c = '\x0b'

/-! ## A small regex-combinator model

Each Python pattern used by the program is compiled by hand into a matcher
`List Char → Option (Nat × Nat)` that follows Python `re` semantics:
leftmost match wins (`reSearch` tries start positions left to right) and
quantifiers are greedy with backtracking (the longer alternative is tried
first via `<|>`). -/

/-- Greedy `\d{1,2}`: prefer two digits, backtrack to one.  The
continuation receives the numeric value of the captured group. -/
def matchD12 (k : Nat → List Char → Option α) : List Char → Option α
  | [] => none
  | [c] => if c.isDigit then k (digitVal c) [] else none
  | c :: c2 :: rest =>
    if c.isDigit then
      (if c2.isDigit then k (10 * digitVal c + digitVal c2) rest else none)
        <|> k (digitVal c) (c2 :: rest)
    else none

/-- Inner loop of greedy `\d+` after at least one digit was consumed:
prefer consuming further digits, backtrack by stopping early. -/
def matchDPlusAux (k : Nat → List Char → Option α) (acc : Nat) : List Char → Option α
  | [] => k acc []
  | c :: rest =>
    if c.isDigit then
      (matchDPlusAux k (10 * acc + digitVal c) rest) <|> k acc (c :: rest)
    else k acc (c :: rest)

/-- Greedy `\d+` (one or more digits, longest first). -/
def matchDPlus (k : Nat → List Char → Option α) : List Char → Option α
  | [] => none
  | c :: rest => if c.isDigit then matchDPlusAux k (digitVal c) rest else none

/-- Case-insensitive literal, as under `re.IGNORECASE`. -/
def matchLitCI (k : List Char → Option α) : List Char → List Char → Option α
  | [], cs => k cs
  | _ :: _, [] => none
  | l :: ls, c :: rest =>
    if c.toLower = l.toLower then matchLitCI k ls rest else none

/-- Greedy star over a character class with backtracking (`\s*`, and `.*`
via the class of non-newline characters since `re.DOTALL` is not set). -/
def matchStar (p : Char → Bool) (k : List Char → Option α) : List Char → Option α
  | [] => k []
  | c :: rest => (if p c then matchStar p k rest else none) <|> k (c :: rest)

/-- Model of `re.search`: try the matcher at each start position, leftmost first
(the empty suffix is also a valid start position). -/
def reSearch (m : List Char → Option α) : List Char → Option α
  | [] => m []
  | c :: rest => m (c :: rest) <|> reSearch m rest

/-! ## `FFmpegWorker.extract_season_episode` (worker.py lines 376-390)

Patterns, in priority order:
`[Ss](\d{1,2})[Ee](\d{1,2})`, `(\d{1,2})x(\d{1,2})`,
`Season\s*(\d{1,2}).*Episode\s*(\d{1,2})`, `(\d{1,2})\s*-\s*(\d{1,2})`,
all searched with `re.IGNORECASE`; the first pattern that matches anywhere
wins and the two captured groups are converted with `int`. -/

namespace Worker

def matchP1At (cs : List Char) : Option (Nat × Nat) :=
  match cs with
  | [] => none
  | c :: rest =>
    if c = 'S' ∨ c = 's' then
      matchD12 (fun s r1 =>
        match r1 with
        | [] => none
        | e :: r2 =>
          if e = 'E' ∨ e = 'e' then
            matchD12 (fun ep _ => some (s, ep)) r2
          else none) rest
    else none

def matchP2At (cs : List Char) : Option (Nat × Nat) :=
  matchD12 (fun a r1 =>
    match r1 with
    | [] => none
    | x :: r2 =>
      if x.toLower = 'x' then matchD12 (fun b _ => some (a, b)) r2 else none) cs

def matchP3At (cs : List Char) : Option (Nat × Nat) :=
  matchLitCI (fun r1 =>
    matchStar isPySpace (fun r2 =>
      matchD12 (fun s r3 =>
        matchStar (fun c => c ≠ '\n') (fun r4 =>
          matchLitCI (fun r5 =>
            matchStar isPySpace (fun r6 =>
              matchD12 (fun e _ => some (s, e)) r6) r5) "Episode".data r4) r3) r2) r1)
    "Season".data cs

def matchP4At (cs : List Char) : Option (Nat × Nat) :=
  matchD12 (fun a r1 =>
    matchStar isPySpace (fun r2 =>
      match r2 with
      | '-' :: r3 =>
        matchStar isPySpace (fun r4 => matchD12 (fun b _ => some (a, b)) r4) r3
      | _ => none) r1) cs

def extract_season_episode (filename : String) : Option Nat × Option Nat :=
  match reSearch matchP1At filename.data with
  | some (s, e) => (some s, some e)
  | none =>
    match reSearch matchP2At filename.data with
    | some (s, e) => (some s, some e)
    | none =>
      match reSearch matchP3At filename.data with
      | some (s, e) => (some s, some e)
      | none =>
        match reSearch matchP4At filename.data with
        | some (s, e) => (some s, some e)
        | none => (none, none)

end Worker

/-! ## `extract_season_episode` (utils.py lines 151-167)

Same four patterns and priority order, but the digit groups are the
unbounded `(\d+)`.  This variant is the one exercised by the repository
test-suite and by the bulk-renaming preview; the worker variant above is
the one used during rename execution. -/

namespace Utils

def matchU1At (cs : List Char) : Option (Nat × Nat) :=
  match cs with
  | [] => none
  | c :: rest =>
    if c = 'S' ∨ c = 's' then
      matchDPlus (fun s r1 =>
        match r1 with
        | [] => none
        | e :: r2 =>
          if e = 'E' ∨ e = 'e' then
            matchDPlus (fun ep _ => some (s, ep)) r2
          else none) rest
    else none

def matchU2At (cs : List Char) : Option (Nat × Nat) :=
  matchDPlus (fun a r1 =>
    match r1 with
    | [] => none
    | x :: r2 =>
      if x.toLower = 'x' then matchDPlus (fun b _ => some (a, b)) r2 else none) cs

def matchU3At (cs : List Char) : Option (Nat × Nat) :=
  matchLitCI (fun r1 =>
    matchStar isPySpace (fun r2 =>
      matchDPlus (fun s r3 =>
        matchStar (fun c => c ≠ '\n') (fun r4 =>
          matchLitCI (fun r5 =>
            matchStar isPySpace (fun r6 =>
              matchDPlus (fun e _ => some (s, e)) r6) r5) "Episode".data r4) r3) r2) r1)
    "Season".data cs

def matchU4At (cs : List Char) : Option (Nat × Nat) :=
  matchDPlus (fun a r1 =>
    matchStar isPySpace (fun r2 =>
      match r2 with
      | '-' :: r3 =>
        matchStar isPySpace (fun r4 => matchDPlus (fun b _ => some (a, b)) r4) r3
      | _ => none) r1) cs

def extract_season_episode (filename : String) : Option Nat × Option Nat :=
  match reSearch matchU1At filename.data with
  | some (s, e) => (some s, some e)
  | none =>
    match reSearch matchU2At filename.data with
    | some (s, e) => (some s, some e)
    | none =>
      match reSearch matchU3At filename.data with
      | some (s, e) => (some s, some e)
      | none =>
        match reSearch matchU4At filename.data with
        | some (s, e) => (some s, some e)
        | none => (none, none)

end Utils

/-! ## Path and string operations (`pathlib.Path.stem`, `str.lower`, `in`)

`Path.stem` is the last path component with its final suffix removed; per
CPython a suffix exists only when the last dot is neither the first nor
the last character of the component.  Joining `dir / name` is modelled as
`dir ++ "/" ++ name` (the directories appearing in the claims carry no
trailing slash, so no normalization is needed). -/

def lastDotIdx (cs : List Char) : Option Nat :=
  match cs.reverse.findIdx? (· = '.') with
  | none => none
  | some j => some (cs.length - 1 - j)

def pathName (p : String) : String :=
  match (p.data.splitOn '/').filter (· ≠ []) |>.getLast? with
  | some seg => ⟨seg⟩
  | none => ""

def stemOfName (n : List Char) : List Char :=
  match lastDotIdx n with
  | some i => if 0 < i ∧ i < n.length - 1 then n.take i else n
  | none => n

def pathStem (p : String) : String := ⟨stemOfName (pathName p).data⟩

def lowerStr (s : String) : String := ⟨s.data.map Char.toLower⟩

def isPrefixCl : List Char → List Char → Bool
  | [], _ => true
  | _ :: _, [] => false
  | a :: as, b :: bs => a == b && isPrefixCl as bs

/-- Python's substring test `needle in hay` (contiguous substring). -/
def isSubstrCl (nd : List Char) : List Char → Bool
  | [] => isPrefixCl nd []
  | c :: t => isPrefixCl nd (c :: t) || isSubstrCl nd t

/-! ## Companion matching (worker.py lines 184-189 and 282-287)

`merge_audio` and `embed_subtitles` keep a candidate when
`video.path.stem.lower() in candidate.stem.lower()` or vice versa. -/

def companionMatches (primaryStem candidateStem : String) : Bool :=
  isSubstrCl (lowerStr primaryStem).data (lowerStr candidateStem).data ||
  isSubstrCl (lowerStr candidateStem).data (lowerStr primaryStem).data

def matchingCompanions (videoPath : String) (candidates : List String) : List String :=
  candidates.filter (fun c => companionMatches (pathStem videoPath) (pathStem c))

/-! ## Job data (worker.py lines 13-34)

`MediaFile` also carries a probed duration and track lists in the source;
those fields are never read by any code path modelled here (the worker
re-probes duration with `_get_duration`), so only `path` and `filename`
are kept. -/

structure MediaFile where
  path : String
  filename : String
deriving DecidableEq, Repr

/-- The job's free-form settings dict; each field models one recognized
key, `none` standing for an absent key so that call sites can mirror
`settings.get(key, default)` with `Option.getD`. -/
structure Settings where
  format : Option String := none
  preserve_original : Option Bool := none
  audio_files : Option (List String) := none
  subtitle_files : Option (List String) := none
  subtitle_type : Option String := none
  default_subtitle : Option Bool := none
  filename_template : Option String := none
deriving DecidableEq, Repr

/-! ## Command builders (worker.py lines 84-103 and 151-174) -/

/-- The codec table of `build_extract_audio_cmd`. -/
def codecs : String → Option String
  | "mp3" => some "libmp3lame"
  | "flac" => some "flac"
  | "ogg" => some "libvorbis"
  | _ => none

/-- Builder `FFmpegWorker.build_extract_audio_cmd`.  Here `ffmpegPath` stands for the
ambient `get_ffmpeg_path()` lookup; the output stem comes from the
(mutable) `filename` field, the input from `path`. -/
def build_extract_audio_cmd (ffmpegPath outputDirectory : String)
    (settings : Settings) (mediaFile : MediaFile) : List String :=
  let audioFormat := settings.format.getD "aac"
  let outputStem := pathStem mediaFile.filename
  let outputPath := outputDirectory ++ "/" ++ outputStem ++ "." ++ audioFormat
  let base := [ffmpegPath, "-i", mediaFile.path, "-vn"]
  let withCodec :=
    if audioFormat = "aac" then base ++ ["-acodec", "aac"]
    else
      match codecs audioFormat with
      | some c => base ++ ["-acodec", c]
      | none => base
  withCodec ++ ["-y", outputPath]

/-- Builder `FFmpegWorker.build_merge_audio_cmd`. -/
def build_merge_audio_cmd (ffmpegPath outputDirectory : String) (settings : Settings)
    (videoFile : MediaFile) (matchingAudio : List String) (languages : List String) :
    List String :=
  let outputPath := outputDirectory ++ "/" ++ pathStem videoFile.path ++ "_merged.mkv"
  let cmd := [ffmpegPath, "-i", videoFile.path] ++ matchingAudio.flatMap (fun a => ["-i", a])
  let cmd := cmd ++
    (if settings.preserve_original.getD true then
      ["-map", "0", "-map", "-0:a"]
    else
      ["-map", "0:v", "-map", "0:s?"])
  let cmd := cmd ++ (List.range matchingAudio.length).flatMap
    (fun i => ["-map", toString (i + 1) ++ ":a"])
  let cmd := cmd ++ languages.enum.flatMap
    (fun p => ["-metadata:s:a:" ++ toString p.1, "language=" ++ p.2])
  cmd ++ ["-c", "copy", "-y", outputPath]

/-! ## Filename templating (`FFmpegWorker.build_new_filename`, worker.py lines 401-423)

The renderer models `str.format` for the cases this program can reach:
keyword lookup over the six supplied names, `\x7b\x7b`/`\x7d\x7d` as literal
braces, and integer format specs of the shape `[0]digits d`.  Any other
spec, a `d` spec applied to a string value, an unknown keyword, or an
unbalanced brace is a rendering error — exactly the situations in which
Python raises and the bare `except` selects the fallback format. -/

def digitsToNat (ds : List Char) : Nat := ds.foldl (fun a c => 10 * a + digitVal c) 0

/-- Right-aligned padding to a minimum width, as Python's numeric
formatting does with fill `'0'` for a `0`-flagged spec. -/
def padLeft (fill : Char) (w : Nat) (s : String) : String :=
  if s.length < w then ⟨List.replicate (w - s.length) fill⟩ ++ s else s

inductive FmtValue
  | str (s : String)
  | nat (n : Nat)
deriving DecidableEq, Repr

def applySpec (spec : List Char) (v : FmtValue) : Except String String :=
  if spec = [] then
    match v with
    | .str s => .ok s
    | .nat n => .ok (toString n)
  else if spec.getLast? = some 'd' then
    let body := spec.dropLast
    let zero := body.head? = some '0'
    let widthDigits := if zero then body.tail else body
    if widthDigits.all Char.isDigit then
      match v with
      | .nat n =>
        .ok (padLeft (if zero then '0' else ' ') (digitsToNat widthDigits) (toString n))
      | .str _ => .error "Unknown format code d for object of type str"
    else .error "Invalid format specifier"
  else .error "format spec outside the modelled subset"

inductive FmtToken
  | lit (c : Char)
  | field (name : List Char) (spec : List Char)
deriving DecidableEq, Repr

mutual

def tokenize : List Char → Except String (List FmtToken)
  | [] => .ok []
  | '{' :: '{' :: rest => (FmtToken.lit '{' :: ·) <$> tokenize rest
  | '}' :: '}' :: rest => (FmtToken.lit '}' :: ·) <$> tokenize rest
  | '}' :: _ => .error "Single right brace encountered in format string"
  | '{' :: rest => tokenizeField [] rest
  | c :: rest => (FmtToken.lit c :: ·) <$> tokenize rest

def tokenizeField (nameAcc : List Char) : List Char → Except String (List FmtToken)
  | [] => .error "Single left brace encountered in format string"
  | '}' :: rest => (FmtToken.field nameAcc.reverse [] :: ·) <$> tokenize rest
  | ':' :: rest => tokenizeSpec nameAcc.reverse [] rest
  | c :: rest => tokenizeField (c :: nameAcc) rest

def tokenizeSpec (name : List Char) (specAcc : List Char) :
    List Char → Except String (List FmtToken)
  | [] => .error "Single left brace encountered in format string"
  | '}' :: rest => (FmtToken.field name specAcc.reverse :: ·) <$> tokenize rest
  | c :: rest => tokenizeSpec name (c :: specAcc) rest

end

def renderToken (lookup : String → Option FmtValue) : FmtToken → Except String String
  | .lit c => .ok ⟨[c]⟩
  | .field name spec =>
    match lookup ⟨name⟩ with
    | none => .error ("KeyError: " ++ ⟨name⟩)
    | some v => applySpec spec v

/-- Model of `template.format(...)`: fields evaluated left to right, first error
aborts (the caller only distinguishes success from failure). -/
def renderTemplate (lookup : String → Option FmtValue) (template : String) :
    Except String String := do
  let toks ← tokenize template.data
  let parts ← toks.mapM (renderToken lookup)
  .ok (String.join parts)

/-- The character class of `re.sub` at worker.py line 407. -/
def illegalFilenameChar (c : Char) : Bool :=
  c = '<' || c = '>' || c = ':' || c = '"' || c = '/' || c = '\\' ||
  c = '|' || c = '?' || c = '*'

def sanitizeName (s : String) : String :=
  ⟨s.data.filter (fun c => !illegalFilenameChar c)⟩

/-- One position of the year pattern: a parenthesized group of exactly
four digits. -/
def matchYearAt : List Char → Option (List Char)
  | '(' :: d1 :: d2 :: d3 :: d4 :: ')' :: _ =>
    if d1.isDigit && d2.isDigit && d3.isDigit && d4.isDigit then
      some [d1, d2, d3, d4]
    else none
  | _ => none

def yearOf (cleanName : String) : String :=
  match reSearch matchYearAt cleanName.data with
  | some ds => ⟨ds⟩
  | none => ""

/-- The keyword arguments passed to `template.format` at worker.py
lines 413-420. -/
def fmtEnv (name : String) (season episode : Nat) (title ext year : String) :
    String → Option FmtValue
  | "name" => some (.str name)
  | "season" => some (.nat season)
  | "episode" => some (.nat episode)
  | "title" => some (.str title)
  | "ext" => some (.str ext)
  | "year" => some (.str year)
  | _ => none

def defaultFilenameTemplate : String :=
  "\x7bname\x7d - S\x7bseason:02d\x7dE\x7bepisode:02d\x7d - \x7btitle\x7d\x7bext\x7d"

/-- The fallback f-string at worker.py line 423. -/
def fallbackFilename (cleanName : String) (season episode : Nat) (extension : String) :
    String :=
  cleanName ++ " - S" ++ padLeft '0' 2 (toString season) ++ "E" ++
    padLeft '0' 2 (toString episode) ++ extension

/-- Renamer `FFmpegWorker.build_new_filename`. -/
def build_new_filename (showName : String) (season episode : Nat)
    (episodeTitle extension : String) (settings : Settings) : String :=
  let template := settings.filename_template.getD defaultFilenameTemplate
  let cleanName := sanitizeName showName
  let cleanTitle := if episodeTitle ≠ "" then sanitizeName episodeTitle else ""
  let year := yearOf cleanName
  match renderTemplate (fmtEnv cleanName season episode cleanTitle extension year) template with
  | .ok s => s
  | .error _ => fallbackFilename cleanName season episode extension

/-! ## Worker trace semantics

The batch methods of `FFmpegWorker` are embedded as functions from the job
inputs, a per-file description of the external world, and a cancellation
schedule, to the ordered list of Qt signal emissions (plus one `spawn`
event per `subprocess.Popen`).  The `is_cancelled` flag is set
asynchronously by `cancel()` and only ever goes from false to true, so a
schedule is the poll index from which reads of the flag return true
(`none` = never).  A clock counts the reads of `is_cancelled`; every event
is tagged with the clock value at its emission, so "after cancellation was
observed" is expressible as a clock comparison. -/

/-- A `time=HH:MM:SS.cc` stamp as captured by the progress regex
`time=(\d\d:\d\d:\d\d\.\d\d)`; each field holds the value of one
two-digit group. -/
structure TimeStamp where
  hh : Nat
  mm : Nat
  ss : Nat
  cc : Nat
deriving DecidableEq, Repr

/-- Conversion `FFmpegWorker._time_str_to_seconds` applied to a captured stamp. -/
def timeStrToSeconds (ts : TimeStamp) : ℚ :=
  ts.hh * 3600 + ts.mm * 60 + (ts.ss + (ts.cc : ℚ) / 100)

/-- Python `int()` on a rational: truncation toward zero (the reduced
numerator divided by the positive denominator, rounding toward zero). -/
def pyInt (q : ℚ) : Int := q.num.tdiv q.den

/-- What the external world does for one input file: the duration reported
by `_get_duration` (0 when probing fails), the stderr lines of the spawned
process — each reduced to whether the `time=` regex matched and, if so,
the captured stamp — and the process exit status.  Floating-point
durations are modelled as rationals. -/
structure FileEnv where
  duration : ℚ
  lines : List (Option TimeStamp)
  exitCode : Int
deriving DecidableEq, Repr

/-- Reads of the monotone `is_cancelled` flag under a schedule: the read
with clock `t` returns true exactly when the schedule point has passed. -/
def cancelledAt (cancelAt : Option Nat) (t : Nat) : Bool :=
  match cancelAt with
  | none => false
  | some k => decide (k ≤ t)

inductive Event
  | status (msg : String)
  | progress (pct : Int)
  | spawn (cmd : List String)
  | completed (msg : String) (success : Bool)
deriving DecidableEq, Repr

def progressValues (evs : List (Nat × Event)) : List Int :=
  evs.filterMap (fun p => match p.2 with | .progress v => some v | _ => none)

def completedEvents (evs : List (Nat × Event)) : List (String × Bool) :=
  evs.filterMap (fun p => match p.2 with | .completed m b => some (m, b) | _ => none)

def spawnedCmds (evs : List (Nat × Event)) : List (List String) :=
  evs.filterMap (fun p => match p.2 with | .spawn c => some c | _ => none)

def extractStatusMsg (j n : Nat) (fname : String) : String :=
  s!"({j}/{n}) Extracting from {fname}..."

def noDurationMsg (fname : String) : String :=
  s!"Could not get duration for {fname}. Progress will not be shown."

def extractFailMsg (fname : String) : String :=
  s!"Failed to extract from {fname}.\n"

/-- The percentage emitted for file `i` of `n` on a time stamp `ts`
against duration `d`: worker.py lines 130-133,
`int(((i + int(elapsed/duration*100)/100)/total)*100)`. -/
def overallPct (i n : Nat) (d : ℚ) (ts : TimeStamp) : Int :=
  pyInt (((i : ℚ) + ((pyInt (timeStrToSeconds ts / d * 100) : ℚ)) / 100) / (n : ℚ) * 100)

/-- The stderr-reading loop of `extract_audio` (worker.py lines 121-134):
each obtained line first polls `is_cancelled` (terminating the process and
breaking when it reads true), then, when the line carries a time stamp and
the probed duration is positive, emits the file-scaled overall progress
percentage `overallPct`. -/
def readDiagLoop (cancelAt : Option Nat) (i n : Nat) (d : ℚ) :
    List (Option TimeStamp) → Nat → List (Nat × Event) × Nat
  | [], t => ([], t)
  | line :: rest, t =>
    if cancelledAt cancelAt t then ([], t + 1)
    else
      match line with
      | some ts =>
        if 0 < d then
          let r := readDiagLoop cancelAt i n d rest (t + 1)
          ((t + 1, Event.progress (overallPct i n d ts)) :: r.1, r.2)
        else readDiagLoop cancelAt i n d rest (t + 1)
      | none => readDiagLoop cancelAt i n d rest (t + 1)

/-- Result of the per-file loop of a batch method: the timed events, the
final clock, and whether the method returned early on a failure. -/
structure LoopOut where
  evs : List (Nat × Event)
  clock : Nat
  halted : Bool
deriving DecidableEq, Repr

/-- Result of a whole batch run: the timed events and the final clock. -/
structure RunTrace where
  evs : List (Nat × Event)
  clock : Nat
deriving DecidableEq, Repr

/-- Result of a loop that can propagate a Python exception. -/
structure ExcOut where
  evs : List (Nat × Event)
  clock : Nat
  exc : Option String
deriving DecidableEq, Repr

/-- The file loop of `extract_audio` (worker.py lines 107-145).  Per file:
poll `is_cancelled` at the top (break when true), emit the narration
status (plus a warning when the probed duration is 0), spawn the built
command, stream its stderr, wait, and — when the exit status is non-zero
and a further read of the flag returns false — emit the failure completion
and return from the method (third component true).  When the stderr loop
was broken by cancellation the real exit status of the terminated process
is irrelevant: the flag is monotone, so the guarded failure branch is
never taken and no event is emitted either way. -/
def extractLoop (ffmpegPath outputDirectory : String) (settings : Settings)
    (cancelAt : Option Nat) (n : Nat) :
    List (MediaFile × FileEnv) → Nat → Nat → LoopOut
  | [], _, t => ⟨[], t, false⟩
  | (f, env) :: rest, i, t =>
    if cancelledAt cancelAt t then ⟨[], t + 1, false⟩
    else
      let t1 := t + 1
      let statusEvs := (t1, Event.status (extractStatusMsg (i + 1) n f.filename)) ::
        (if env.duration = 0 then [(t1, Event.status (noDurationMsg f.filename))] else [])
      let cmd := build_extract_audio_cmd ffmpegPath outputDirectory settings f
      let inner := readDiagLoop cancelAt i n env.duration env.lines t1
      let t2 := inner.2
      if env.exitCode ≠ 0 then
        if cancelledAt cancelAt t2 then
          let r := extractLoop ffmpegPath outputDirectory settings cancelAt n rest (i + 1) (t2 + 1)
          ⟨statusEvs ++ (t1, Event.spawn cmd) :: inner.1 ++ r.evs, r.clock, r.halted⟩
        else
          ⟨statusEvs ++ (t1, Event.spawn cmd) :: inner.1 ++
            [(t2 + 1, Event.completed (extractFailMsg f.filename) false)], t2 + 1, true⟩
      else
        let r := extractLoop ffmpegPath outputDirectory settings cancelAt n rest (i + 1) t2
        ⟨statusEvs ++ (t1, Event.spawn cmd) :: inner.1 ++ r.evs, r.clock, r.halted⟩

/-- Method `FFmpegWorker.extract_audio` (worker.py lines 105-149): run the file
loop; unless the method returned early on a failure, read the flag once
more and, when it is still false, emit `progress(100)` and the successful
completion.  Returns the timed trace and the final clock. -/
def extract_audio (ffmpegPath outputDirectory : String) (settings : Settings)
    (files : List (MediaFile × FileEnv)) (cancelAt : Option Nat) : RunTrace :=
  let n := files.length
  let r := extractLoop ffmpegPath outputDirectory settings cancelAt n files 0 0
  if r.halted then ⟨r.evs, r.clock⟩
  else if cancelledAt cancelAt r.clock then ⟨r.evs, r.clock + 1⟩
  else
    ⟨r.evs ++ [(r.clock + 1, Event.progress 100),
               (r.clock + 1, Event.completed "Audio extraction completed!" true)],
     r.clock + 1⟩

/-! ## `merge_audio` and `embed_subtitles` (worker.py lines 176-229 and 274-327)

Line 199 reads `self._build_merge_audio_cmd` and line 297 reads
`self._build_embed_subtitles_cmd`.  Neither name is an attribute of
`FFmpegWorker` (the defined builders are `build_merge_audio_cmd` and
`build_embed_subtitles_cmd`, which moreover take a further `languages`
argument), so Python raises AttributeError at the first input file that
has a matching companion — before any process is spawned, and outside the
inner `try`, so the exception propagates to `run`, whose handler emits
`job_completed("Error: ...", False)`. -/

/-- The attribute names `FFmpegWorker` instances expose: the methods
defined by the class (worker.py) plus the instance attributes set in
`__init__`.  Neither dunder-free builder variant with a leading underscore
appears. -/
def workerMethodNames : List String :=
  ["run", "_get_duration", "_time_str_to_seconds", "build_extract_audio_cmd",
   "extract_audio", "build_merge_audio_cmd", "merge_audio",
   "build_embed_subtitles_cmd", "embed_subtitles", "bulk_rename",
   "extract_season_episode", "get_episode_title", "build_new_filename",
   "cancel", "job", "is_cancelled"]

/-- The AttributeError text (Python renders the class and attribute names
in single quotes; the quotes are omitted here). -/
def attributeErrorMsg (name : String) : String :=
  "FFmpegWorker object has no attribute " ++ name

/-- The message emitted by `run` when a job method raises (worker.py
line 57). -/
def runErrorMsg (m : String) : String := s!"Error: {m}"

def mergeStatusMsg (j n : Nat) (fname : String) : String :=
  s!"({j}/{n}) Merging audio into {fname}..."

def noAudioMsg (fname : String) : String :=
  s!"No matching audio found for {fname}"

/-- The file loop of `merge_audio`.  Per file: poll `is_cancelled`, emit
the narration status, filter the `audio_files` setting through the
symmetric-containment stem match; with no match emit a skip note and
continue; otherwise probe the duration (warning status when 0) and then
perform the `_build_merge_audio_cmd` attribute lookup, which raises.  The
third component carries the exception, if one was raised.  Only the
`duration` field of the environment is consulted: the run never reaches
`Popen`. -/
def mergeLoop (settings : Settings) (cancelAt : Option Nat) (n : Nat) :
    List (MediaFile × FileEnv) → Nat → Nat → ExcOut
  | [], _, t => ⟨[], t, none⟩
  | (f, env) :: rest, i, t =>
    if cancelledAt cancelAt t then ⟨[], t + 1, none⟩
    else
      let t1 := t + 1
      let st := (t1, Event.status (mergeStatusMsg (i + 1) n f.filename))
      let matching := matchingCompanions f.path (settings.audio_files.getD [])
      if matching.isEmpty then
        let r := mergeLoop settings cancelAt n rest (i + 1) t1
        ⟨st :: (t1, Event.status (noAudioMsg f.filename)) :: r.evs, r.clock, r.exc⟩
      else
        let durEvs :=
          if env.duration = 0 then [(t1, Event.status (noDurationMsg f.filename))] else []
        if "_build_merge_audio_cmd" ∈ workerMethodNames then
          -- not taken: the name is absent from the class (and even the
          -- correctly named builder would next fail on the missing
          -- `languages` argument)
          ⟨st :: durEvs, t1, none⟩
        else
          ⟨st :: durEvs, t1, some (attributeErrorMsg "_build_merge_audio_cmd")⟩

/-- Method `merge_audio` as dispatched by `run`: a raised exception becomes the
single failure completion event; otherwise the loop finishes and — when
cancellation is still unobserved — the success completion is emitted. -/
def merge_audio (settings : Settings) (files : List (MediaFile × FileEnv))
    (cancelAt : Option Nat) : RunTrace :=
  let n := files.length
  let r := mergeLoop settings cancelAt n files 0 0
  match r.exc with
  | some m => ⟨r.evs ++ [(r.clock, Event.completed (runErrorMsg m) false)], r.clock⟩
  | none =>
    if cancelledAt cancelAt r.clock then ⟨r.evs, r.clock + 1⟩
    else
      ⟨r.evs ++ [(r.clock + 1, Event.progress 100),
                 (r.clock + 1, Event.completed "Audio merging completed!" true)],
       r.clock + 1⟩

def embedStatusMsg (j n : Nat) (fname : String) : String :=
  s!"({j}/{n}) Embedding subtitles in {fname}..."

def noSubsMsg (fname : String) : String :=
  s!"No matching subtitles found for {fname}"

/-- The file loop of `embed_subtitles`, structurally identical to
`mergeLoop` but over the `subtitle_files` setting and the (also absent)
`_build_embed_subtitles_cmd` attribute. -/
def embedLoop (settings : Settings) (cancelAt : Option Nat) (n : Nat) :
    List (MediaFile × FileEnv) → Nat → Nat → ExcOut
  | [], _, t => ⟨[], t, none⟩
  | (f, env) :: rest, i, t =>
    if cancelledAt cancelAt t then ⟨[], t + 1, none⟩
    else
      let t1 := t + 1
      let st := (t1, Event.status (embedStatusMsg (i + 1) n f.filename))
      let matching := matchingCompanions f.path (settings.subtitle_files.getD [])
      if matching.isEmpty then
        let r := embedLoop settings cancelAt n rest (i + 1) t1
        ⟨st :: (t1, Event.status (noSubsMsg f.filename)) :: r.evs, r.clock, r.exc⟩
      else
        let durEvs :=
          if env.duration = 0 then [(t1, Event.status (noDurationMsg f.filename))] else []
        if "_build_embed_subtitles_cmd" ∈ workerMethodNames then
          -- not taken: the name is absent from the class
          ⟨st :: durEvs, t1, none⟩
        else
          ⟨st :: durEvs, t1, some (attributeErrorMsg "_build_embed_subtitles_cmd")⟩

/-- Method `embed_subtitles` as dispatched by `run`. -/
def embed_subtitles (settings : Settings) (files : List (MediaFile × FileEnv))
    (cancelAt : Option Nat) : RunTrace :=
  let n := files.length
  let r := embedLoop settings cancelAt n files 0 0
  match r.exc with
  | some m => ⟨r.evs ++ [(r.clock, Event.completed (runErrorMsg m) false)], r.clock⟩
  | none =>
    if cancelledAt cancelAt r.clock then ⟨r.evs, r.clock + 1⟩
    else
      ⟨r.evs ++ [(r.clock + 1, Event.progress 100),
                 (r.clock + 1, Event.completed "Subtitle embedding completed!" true)],
       r.clock + 1⟩

/-- Timestamps never exceed the probed duration (when one is known) and
never go backwards within one file's stderr stream: the hypotheses under
which the spec's progress invariant actually holds. -/
def envTimesOK (env : FileEnv) : Prop :=
  List.Pairwise (· ≤ ·) ((env.lines.filterMap id).map timeStrToSeconds) ∧
  (0 < env.duration → ∀ ts ∈ env.lines.filterMap id, timeStrToSeconds ts ≤ env.duration)

/-- Least percentage file `i` of `n` can report. -/
def fileLo (i n : Nat) : Int := ⌊(i : ℚ) / n * 100⌋

/-- Greatest percentage file `i` of `n` can report. -/
def fileHi (i n : Nat) : Int := ⌊((i : ℚ) + 1) / n * 100⌋

/-! ## Theorems -/

/-! Arithmetic facts about `pyInt` and the progress formula. -/

lemma pyInt_eq_floor (q : ℚ) (hq : 0 ≤ q) : pyInt q = ⌊q⌋ := by
  unfold pyInt
  conv_rhs => rw [← Rat.num_div_den q]
  rw [Rat.floor_intCast_div_natCast]
  exact Int.tdiv_eq_ediv (Rat.num_nonneg.mpr hq) (by positivity)

lemma floor_le_int (a : ℚ) (n : Int) (h : a ≤ n) : ⌊a⌋ ≤ n :=
  calc ⌊a⌋ ≤ ⌊(n : ℚ)⌋ := Int.floor_le_floor h
    _ = n := Int.floor_intCast n

lemma timeStrToSeconds_nonneg (ts : TimeStamp) : 0 ≤ timeStrToSeconds ts := by
  unfold timeStrToSeconds
  positivity

lemma fileLo_nonneg (i n : Nat) : 0 ≤ fileLo i n :=
  Int.floor_nonneg.mpr (by positivity)

lemma fileLo_mono (n : Nat) {i j : Nat} (hn : 0 < n) (h : i ≤ j) :
    fileLo i n ≤ fileLo j n := by
  apply Int.floor_le_floor
  have hnq : (0 : ℚ) < n := by exact_mod_cast hn
  gcongr

lemma fileHi_eq_fileLo_succ (i n : Nat) : fileHi i n = fileLo (i + 1) n := by
  unfold fileHi fileLo
  congr 1
  push_cast
  ring

lemma fileHi_le_100 (i n : Nat) (h : i < n) : fileHi i n ≤ 100 := by
  have hnq : (0 : ℚ) < n := by exact_mod_cast lt_of_le_of_lt (Nat.zero_le i) h
  apply floor_le_int
  calc ((i : ℚ) + 1) / n * 100 ≤ 1 * 100 := by
        gcongr
        rw [div_le_one hnq]
        exact_mod_cast h
    _ = (100 : Int) := by norm_num

lemma overallPct_bounds (i n : Nat) (d : ℚ) (ts : TimeStamp) (hin : i < n)
    (hd : 0 < d) (hts : timeStrToSeconds ts ≤ d) :
    fileLo i n ≤ overallPct i n d ts ∧ overallPct i n d ts ≤ fileHi i n := by
  have hn : 0 < n := lt_of_le_of_lt (Nat.zero_le i) hin
  have hnq : (0 : ℚ) < n := by exact_mod_cast hn
  have he := timeStrToSeconds_nonneg ts
  unfold overallPct
  set p : Int := pyInt (timeStrToSeconds ts / d * 100) with hpdef
  have hparg : 0 ≤ timeStrToSeconds ts / d * 100 := by positivity
  have hp0 : 0 ≤ p := by
    rw [hpdef, pyInt_eq_floor _ hparg]
    exact Int.floor_nonneg.mpr hparg
  have hp100 : p ≤ 100 := by
    rw [hpdef, pyInt_eq_floor _ hparg]
    apply floor_le_int
    calc timeStrToSeconds ts / d * 100 ≤ 1 * 100 := by
          gcongr
          rw [div_le_one hd]
          exact hts
      _ = ((100 : Int) : ℚ) := by norm_num
  have hpq : (0 : ℚ) ≤ (p : ℚ) := by exact_mod_cast hp0
  have hpq100 : (p : ℚ) ≤ 100 := by exact_mod_cast hp100
  have harg : 0 ≤ ((i : ℚ) + (p : ℚ) / 100) / (n : ℚ) * 100 := by
    have h1 : (0 : ℚ) ≤ (i : ℚ) + (p : ℚ) / 100 := by positivity
    positivity
  rw [pyInt_eq_floor _ harg]
  constructor
  · unfold fileLo
    apply Int.floor_le_floor
    gcongr
    · exact le_add_of_nonneg_right (by positivity)
  · unfold fileHi
    apply Int.floor_le_floor
    gcongr
    rw [div_le_one (by norm_num : (0:ℚ) < 100)]
    exact hpq100

lemma overallPct_mono (i n : Nat) (d : ℚ) (ts1 ts2 : TimeStamp) (hn : 0 < n)
    (hd : 0 < d) (h : timeStrToSeconds ts1 ≤ timeStrToSeconds ts2) :
    overallPct i n d ts1 ≤ overallPct i n d ts2 := by
  have hnq : (0 : ℚ) < n := by exact_mod_cast hn
  unfold overallPct
  have harg1 : 0 ≤ timeStrToSeconds ts1 / d * 100 := by
    have := timeStrToSeconds_nonneg ts1
    positivity
  have harg2 : 0 ≤ timeStrToSeconds ts2 / d * 100 := by
    have := timeStrToSeconds_nonneg ts2
    positivity
  have hp : pyInt (timeStrToSeconds ts1 / d * 100) ≤ pyInt (timeStrToSeconds ts2 / d * 100) := by
    rw [pyInt_eq_floor _ harg1, pyInt_eq_floor _ harg2]
    apply Int.floor_le_floor
    gcongr
  set p1 : Int := pyInt (timeStrToSeconds ts1 / d * 100) with hp1def
  set p2 : Int := pyInt (timeStrToSeconds ts2 / d * 100) with hp2def
  have hp10 : 0 ≤ p1 := by
    rw [hp1def, pyInt_eq_floor _ harg1]
    exact Int.floor_nonneg.mpr harg1
  have hp1q : (0 : ℚ) ≤ (p1 : ℚ) := by exact_mod_cast hp10
  have hppq : (p1 : ℚ) ≤ (p2 : ℚ) := by exact_mod_cast hp
  have harg1o : 0 ≤ ((i : ℚ) + (p1 : ℚ) / 100) / (n : ℚ) * 100 := by
    have h1 : (0 : ℚ) ≤ (i : ℚ) + (p1 : ℚ) / 100 := by positivity
    positivity
  have harg2o : 0 ≤ ((i : ℚ) + (p2 : ℚ) / 100) / (n : ℚ) * 100 := by
    have h2 : (0 : ℚ) ≤ (i : ℚ) + (p2 : ℚ) / 100 := by
      have : (0 : ℚ) ≤ (p2 : ℚ) := le_trans hp1q hppq
      positivity
    positivity
  rw [pyInt_eq_floor _ harg1o, pyInt_eq_floor _ harg2o]
  apply Int.floor_le_floor
  gcongr

/-! Helper lemmas on traces. -/

lemma progressValues_append (l1 l2 : List (Nat × Event)) :
    progressValues (l1 ++ l2) = progressValues l1 ++ progressValues l2 :=
  List.filterMap_append ..

lemma completedEvents_append (l1 l2 : List (Nat × Event)) :
    completedEvents (l1 ++ l2) = completedEvents l1 ++ completedEvents l2 :=
  List.filterMap_append ..

lemma spawnedCmds_append (l1 l2 : List (Nat × Event)) :
    spawnedCmds (l1 ++ l2) = spawnedCmds l1 ++ spawnedCmds l2 :=
  List.filterMap_append ..

lemma completedEvents_nil : completedEvents [] = [] := rfl

lemma spawnedCmds_nil : spawnedCmds [] = [] := rfl

lemma progressValues_nil : progressValues [] = [] := rfl

lemma completedEvents_cons_status (t : Nat) (m : String) (l : List (Nat × Event)) :
    completedEvents ((t, Event.status m) :: l) = completedEvents l := rfl

lemma completedEvents_cons_progress (t : Nat) (v : Int) (l : List (Nat × Event)) :
    completedEvents ((t, Event.progress v) :: l) = completedEvents l := rfl

lemma completedEvents_cons_spawn (t : Nat) (c : List String) (l : List (Nat × Event)) :
    completedEvents ((t, Event.spawn c) :: l) = completedEvents l := rfl

lemma completedEvents_cons_completed (t : Nat) (m : String) (b : Bool)
    (l : List (Nat × Event)) :
    completedEvents ((t, Event.completed m b) :: l) = (m, b) :: completedEvents l := rfl

lemma spawnedCmds_cons_status (t : Nat) (m : String) (l : List (Nat × Event)) :
    spawnedCmds ((t, Event.status m) :: l) = spawnedCmds l := rfl

lemma spawnedCmds_cons_progress (t : Nat) (v : Int) (l : List (Nat × Event)) :
    spawnedCmds ((t, Event.progress v) :: l) = spawnedCmds l := rfl

lemma spawnedCmds_cons_spawn (t : Nat) (c : List String) (l : List (Nat × Event)) :
    spawnedCmds ((t, Event.spawn c) :: l) = c :: spawnedCmds l := rfl

lemma spawnedCmds_cons_completed (t : Nat) (m : String) (b : Bool)
    (l : List (Nat × Event)) :
    spawnedCmds ((t, Event.completed m b) :: l) = spawnedCmds l := rfl

lemma progressValues_cons_status (t : Nat) (m : String) (l : List (Nat × Event)) :
    progressValues ((t, Event.status m) :: l) = progressValues l := rfl

lemma progressValues_cons_progress (t : Nat) (v : Int) (l : List (Nat × Event)) :
    progressValues ((t, Event.progress v) :: l) = v :: progressValues l := rfl

lemma progressValues_cons_spawn (t : Nat) (c : List String) (l : List (Nat × Event)) :
    progressValues ((t, Event.spawn c) :: l) = progressValues l := rfl

lemma progressValues_cons_completed (t : Nat) (m : String) (b : Bool)
    (l : List (Nat × Event)) :
    progressValues ((t, Event.completed m b) :: l) = progressValues l := rfl

/-- Every event of the stderr-reading loop is a progress percentage. -/
lemma readDiagLoop_events_progress (c : Option Nat) (i n : Nat) (d : ℚ) :
    ∀ (lines : List (Option TimeStamp)) (t : Nat),
      ∀ p ∈ (readDiagLoop c i n d lines t).1, ∃ v, p.2 = Event.progress v
  | [], t => by simp [readDiagLoop]
  | line :: rest, t => by
    intro p hp
    simp only [readDiagLoop] at hp
    split at hp
    · simp at hp
    · split at hp
      · split at hp
        · rcases List.mem_cons.mp hp with h | h
          · exact ⟨_, by rw [h]⟩
          · exact readDiagLoop_events_progress c i n d rest (t + 1) p h
        · exact readDiagLoop_events_progress c i n d rest (t + 1) p hp
      · exact readDiagLoop_events_progress c i n d rest (t + 1) p hp

lemma completedEvents_readDiagLoop (c : Option Nat) (i n : Nat) (d : ℚ)
    (lines : List (Option TimeStamp)) (t : Nat) :
    completedEvents (readDiagLoop c i n d lines t).1 = [] := by
  refine List.filterMap_eq_nil_iff.mpr ?_
  intro p hp
  obtain ⟨v, hv⟩ := readDiagLoop_events_progress c i n d lines t p hp
  rw [hv]

lemma spawnedCmds_readDiagLoop (c : Option Nat) (i n : Nat) (d : ℚ)
    (lines : List (Option TimeStamp)) (t : Nat) :
    spawnedCmds (readDiagLoop c i n d lines t).1 = [] := by
  refine List.filterMap_eq_nil_iff.mpr ?_
  intro p hp
  obtain ⟨v, hv⟩ := readDiagLoop_events_progress c i n d lines t p hp
  rw [hv]

/-- With no cancellation, when every file before some file exits cleanly
and that file's process exits non-zero, the extract file loop spawns the
commands of the clean prefix and of the failing file only, emits exactly
the one failure completion naming the failing file, and returns early. -/
lemma extractLoop_fail_first (fp od : String) (settings : Settings) (n : Nat)
    (f : MediaFile) (env : FileEnv) (post : List (MediaFile × FileEnv))
    (henv : env.exitCode ≠ 0) :
    ∀ (pre : List (MediaFile × FileEnv)) (i t : Nat),
      (∀ p ∈ pre, p.2.exitCode = 0) →
      completedEvents (extractLoop fp od settings none n (pre ++ (f, env) :: post) i t).evs =
        [(extractFailMsg f.filename, false)] ∧
      spawnedCmds (extractLoop fp od settings none n (pre ++ (f, env) :: post) i t).evs =
        (pre ++ [(f, env)]).map (fun p => build_extract_audio_cmd fp od settings p.1) ∧
      (extractLoop fp od settings none n (pre ++ (f, env) :: post) i t).halted = true
  | [], i, t => by
    intro _
    simp only [List.nil_append, extractLoop, cancelledAt, Bool.false_eq_true, if_false,
      if_pos henv, List.map_cons, List.map_nil]
    by_cases hd : env.duration = 0 <;>
      simp [hd, completedEvents_append, spawnedCmds_append,
        completedEvents_cons_status, completedEvents_cons_spawn,
        completedEvents_cons_completed, spawnedCmds_cons_completed,
        spawnedCmds_cons_status, spawnedCmds_cons_spawn,
        completedEvents_readDiagLoop, spawnedCmds_readDiagLoop,
        completedEvents_nil, spawnedCmds_nil]
  | (g, genv) :: pre, i, t => by
    intro hpre
    have hg : genv.exitCode = 0 := hpre (g, genv) (List.mem_cons_self _ _)
    have ih := extractLoop_fail_first fp od settings n f env post henv pre (i + 1)
      (readDiagLoop none i n genv.duration genv.lines (t + 1)).2
      (fun p hp => hpre p (List.mem_cons_of_mem _ hp))
    simp only [List.cons_append, extractLoop, cancelledAt, Bool.false_eq_true, if_false,
      hg, ne_eq, not_true_eq_false, List.map_cons]
    by_cases hd : genv.duration = 0
    · rw [hd] at ih
      simp [hd, completedEvents_append, spawnedCmds_append,
        completedEvents_cons_status, completedEvents_cons_spawn,
        spawnedCmds_cons_status, spawnedCmds_cons_spawn,
        completedEvents_readDiagLoop, spawnedCmds_readDiagLoop,
        ih.1, ih.2.1, ih.2.2, List.map_append]
    · simp [hd, completedEvents_append, spawnedCmds_append,
        completedEvents_cons_status, completedEvents_cons_spawn,
        spawnedCmds_cons_status, spawnedCmds_cons_spawn,
        completedEvents_readDiagLoop, spawnedCmds_readDiagLoop,
        ih.1, ih.2.1, ih.2.2, List.map_append]

/-- Under the schedule `some k`, every event is emitted before the
cancellation flag can have been observed: each emission directly follows
a poll that read false, so its clock is at most `k` (stderr loop). -/
lemma readDiagLoop_times_le (k i n : Nat) (d : ℚ) :
    ∀ (lines : List (Option TimeStamp)) (t : Nat),
      ∀ p ∈ (readDiagLoop (some k) i n d lines t).1, p.1 ≤ k
  | [], t => by simp [readDiagLoop]
  | line :: rest, t => by
    intro p hp
    simp only [readDiagLoop] at hp
    split at hp
    · simp at hp
    · rename_i hc
      have ht : t < k := by
        simpa [cancelledAt] using hc
      split at hp
      · split at hp
        · rcases List.mem_cons.mp hp with h | h
          · rw [h]; exact ht
          · exact readDiagLoop_times_le k i n d rest (t + 1) p h
        · exact readDiagLoop_times_le k i n d rest (t + 1) p hp
      · exact readDiagLoop_times_le k i n d rest (t + 1) p hp

/-- Membership in a conditional singleton block collapses to membership
in the list itself. -/
lemma mem_ite_nil {α : Type} (a : α) (c : Prop) [Decidable c] (l : List α) :
    a ∈ (if c then l else []) → a ∈ l := by
  split
  · exact id
  · intro h
    simp at h

/-- Under the schedule `some k`, every event of the extract file loop has
clock at most `k`. -/
lemma extractLoop_times_le (fp od : String) (settings : Settings) (k n : Nat) :
    ∀ (files : List (MediaFile × FileEnv)) (i t : Nat),
      ∀ p ∈ (extractLoop fp od settings (some k) n files i t).evs, p.1 ≤ k
  | [], i, t => by simp [extractLoop]
  | (f, env) :: rest, i, t => by
    intro p hp
    have hinner := readDiagLoop_times_le k i n env.duration env.lines (t + 1)
    simp only [extractLoop] at hp
    split at hp
    · simp at hp
    · rename_i hc
      have ht : t < k := by
        simpa [cancelledAt] using hc
      have hfront : p ∈ (t + 1, Event.status (extractStatusMsg (i + 1) n f.filename)) ::
          (if env.duration = 0 then [(t + 1, Event.status (noDurationMsg f.filename))]
           else []) ++ (t + 1, Event.spawn (build_extract_audio_cmd fp od settings f)) ::
          (readDiagLoop (some k) i n env.duration env.lines (t + 1)).1 → p.1 ≤ k := by
        intro h
        rcases List.mem_append.mp h with h | h
        · rcases List.mem_cons.mp h with h | h
          · rw [h]; omega
          · rcases List.mem_singleton.mp (mem_ite_nil p _ _ h) with rfl
            omega
        · rcases List.mem_cons.mp h with h | h
          · rw [h]; omega
          · exact hinner p h
      split at hp
      · split at hp
        · rcases List.mem_append.mp hp with h | h
          · exact hfront h
          · exact extractLoop_times_le fp od settings k n rest (i + 1) _ p h
        · rename_i hc2
          have ht2 : (readDiagLoop (some k) i n env.duration env.lines (t + 1)).2 < k := by
            simpa [cancelledAt] using hc2
          rcases List.mem_append.mp hp with h | h
          · exact hfront h
          · rcases List.mem_singleton.mp h with rfl
            simpa using ht2
      · rcases List.mem_append.mp hp with h | h
        · exact hfront h
        · exact extractLoop_times_le fp od settings k n rest (i + 1) _ p h

/-- Under the schedule `some k`, an early failure return can only happen
before cancellation was observed: when the loop halts, its final clock is
at most `k`. -/
lemma extractLoop_halted_clock_le (fp od : String) (settings : Settings) (k n : Nat) :
    ∀ (files : List (MediaFile × FileEnv)) (i t : Nat),
      (extractLoop fp od settings (some k) n files i t).halted = true →
      (extractLoop fp od settings (some k) n files i t).clock ≤ k
  | [], i, t => by simp [extractLoop]
  | (f, env) :: rest, i, t => by
    intro hh
    simp only [extractLoop] at hh ⊢
    split at hh
    · simp at hh
    · rename_i h1
      rw [if_neg h1] at *
      split at hh
      · rename_i h2
        rw [if_pos h2] at *
        split at hh
        · rename_i h3
          rw [if_pos h3]
          exact extractLoop_halted_clock_le fp od settings k n rest (i + 1) _ hh
        · rename_i h3
          rw [if_neg h3]
          have ht2 : (readDiagLoop (some k) i n env.duration env.lines (t + 1)).2 < k := by
            simpa [cancelledAt] using h3
          simpa using ht2
      · rename_i h2
        rw [if_neg h2]
        exact extractLoop_halted_clock_le fp od settings k n rest (i + 1) _ hh

lemma completedEvents_ite_status (c : Prop) [Decidable c] (t : Nat) (m : String) :
    completedEvents (if c then [(t, Event.status m)] else []) = [] := by
  split <;> rfl

lemma spawnedCmds_ite_status (c : Prop) [Decidable c] (t : Nat) (m : String) :
    spawnedCmds (if c then [(t, Event.status m)] else []) = [] := by
  split <;> rfl

lemma progressValues_ite_status (c : Prop) [Decidable c] (t : Nat) (m : String) :
    progressValues (if c then [(t, Event.status m)] else []) = [] := by
  split <;> rfl

/-- A loop run that did not halt early emitted no completion event. -/
lemma extractLoop_no_completed_of_not_halted (fp od : String) (settings : Settings)
    (c : Option Nat) (n : Nat) :
    ∀ (files : List (MediaFile × FileEnv)) (i t : Nat),
      (extractLoop fp od settings c n files i t).halted = false →
      completedEvents (extractLoop fp od settings c n files i t).evs = []
  | [], i, t => by simp [extractLoop, completedEvents_nil]
  | (f, env) :: rest, i, t => by
    intro hh
    simp only [extractLoop] at hh ⊢
    split at hh
    · rename_i h1
      rw [if_pos h1]
      rfl
    · rename_i h1
      rw [if_neg h1] at *
      split at hh
      · rename_i h2
        rw [if_pos h2] at *
        split at hh
        · rename_i h3
          rw [if_pos h3]
          simp [completedEvents_append, completedEvents_cons_status,
            completedEvents_cons_spawn, completedEvents_ite_status,
            completedEvents_readDiagLoop, completedEvents_nil,
            extractLoop_no_completed_of_not_halted fp od settings c n rest (i + 1) _ hh]
        · simp at hh
      · rename_i h2
        rw [if_neg h2]
        simp [completedEvents_append, completedEvents_cons_status,
          completedEvents_cons_spawn, completedEvents_ite_status,
          completedEvents_readDiagLoop, completedEvents_nil,
          extractLoop_no_completed_of_not_halted fp od settings c n rest (i + 1) _ hh]

/-- Every event of the merge file loop is a status narration: the loop
raises before reaching any emission other than its status lines. -/
lemma mergeLoop_events_status (settings : Settings) (c : Option Nat) (n : Nat) :
    ∀ (files : List (MediaFile × FileEnv)) (i t : Nat),
      ∀ p ∈ (mergeLoop settings c n files i t).evs, ∃ m, p.2 = Event.status m
  | [], i, t => by simp [mergeLoop]
  | (f, env) :: rest, i, t => by
    intro p hp
    simp only [mergeLoop] at hp
    split at hp
    · simp at hp
    · split at hp
      · simp only [List.mem_cons] at hp
        rcases hp with h | h | h
        · exact ⟨_, by rw [h]⟩
        · exact ⟨_, by rw [h]⟩
        · exact mergeLoop_events_status settings c n rest (i + 1) (t + 1) p h
      · split at hp <;>
        · simp only [List.mem_cons] at hp
          rcases hp with h | h
          · exact ⟨_, by rw [h]⟩
          · split at h <;> simp at h
            exact ⟨_, by rw [h]⟩

/-- With no cancellation and some file owning a matching audio companion,
the merge loop raises the AttributeError for `_build_merge_audio_cmd`. -/
lemma mergeLoop_exc_of_match (settings : Settings) (n : Nat) :
    ∀ (files : List (MediaFile × FileEnv)) (i t : Nat),
      (∃ p ∈ files,
        (matchingCompanions p.1.path (settings.audio_files.getD [])).isEmpty = false) →
      (mergeLoop settings none n files i t).exc =
        some (attributeErrorMsg "_build_merge_audio_cmd")
  | [], i, t => by simp
  | (f, env) :: rest, i, t => by
    intro h
    simp only [mergeLoop, cancelledAt, if_false]
    by_cases hm : (matchingCompanions f.path (settings.audio_files.getD [])).isEmpty
    · rw [if_pos hm]
      refine mergeLoop_exc_of_match settings n rest (i + 1) (t + 1) ?_
      rcases h with ⟨p, hp, hne⟩
      rcases List.mem_cons.mp hp with rfl | hp
      · rw [hm] at hne; cases hne
      · exact ⟨p, hp, hne⟩
    · rw [if_neg hm, if_neg (by decide : ¬ ("_build_merge_audio_cmd" ∈ workerMethodNames))]
      rfl

/-- Every event of the embed file loop is a status narration. -/
lemma embedLoop_events_status (settings : Settings) (c : Option Nat) (n : Nat) :
    ∀ (files : List (MediaFile × FileEnv)) (i t : Nat),
      ∀ p ∈ (embedLoop settings c n files i t).evs, ∃ m, p.2 = Event.status m
  | [], i, t => by simp [embedLoop]
  | (f, env) :: rest, i, t => by
    intro p hp
    simp only [embedLoop] at hp
    split at hp
    · simp at hp
    · split at hp
      · simp only [List.mem_cons] at hp
        rcases hp with h | h | h
        · exact ⟨_, by rw [h]⟩
        · exact ⟨_, by rw [h]⟩
        · exact embedLoop_events_status settings c n rest (i + 1) (t + 1) p h
      · split at hp <;>
        · simp only [List.mem_cons] at hp
          rcases hp with h | h
          · exact ⟨_, by rw [h]⟩
          · split at h <;> simp at h
            exact ⟨_, by rw [h]⟩

/-- With no cancellation and some file owning a matching subtitle
companion, the embed loop raises the AttributeError for
`_build_embed_subtitles_cmd`. -/
lemma embedLoop_exc_of_match (settings : Settings) (n : Nat) :
    ∀ (files : List (MediaFile × FileEnv)) (i t : Nat),
      (∃ p ∈ files,
        (matchingCompanions p.1.path (settings.subtitle_files.getD [])).isEmpty = false) →
      (embedLoop settings none n files i t).exc =
        some (attributeErrorMsg "_build_embed_subtitles_cmd")
  | [], i, t => by simp
  | (f, env) :: rest, i, t => by
    intro h
    simp only [embedLoop, cancelledAt, if_false]
    by_cases hm : (matchingCompanions f.path (settings.subtitle_files.getD [])).isEmpty
    · rw [if_pos hm]
      refine embedLoop_exc_of_match settings n rest (i + 1) (t + 1) ?_
      rcases h with ⟨p, hp, hne⟩
      rcases List.mem_cons.mp hp with rfl | hp
      · rw [hm] at hne; cases hne
      · exact ⟨p, hp, hne⟩
    · rw [if_neg hm, if_neg (by decide : ¬ ("_build_embed_subtitles_cmd" ∈ workerMethodNames))]
      rfl

/-- The progress values emitted while streaming one file are a sublist of
the per-matched-timestamp percentages, in stream order (cancellation can
cut the stream short; unmatched lines emit nothing). -/
lemma progressValues_readDiagLoop_sublist (c : Option Nat) (i n : Nat) (d : ℚ) :
    ∀ (lines : List (Option TimeStamp)) (t : Nat),
      (progressValues (readDiagLoop c i n d lines t).1).Sublist
        ((lines.filterMap id).map (overallPct i n d))
  | [], t => by simp [readDiagLoop, progressValues_nil]
  | line :: rest, t => by
    simp only [readDiagLoop]
    split
    · simp [progressValues_nil]
    · split
      · split
        · rename_i ts _
          simpa [progressValues_cons_progress] using
            List.Sublist.cons₂ (overallPct i n d ts)
              (progressValues_readDiagLoop_sublist c i n d rest (t + 1))
        · rename_i ts _
          simpa using
            List.Sublist.cons (overallPct i n d ts)
              (progressValues_readDiagLoop_sublist c i n d rest (t + 1))
      · simpa using progressValues_readDiagLoop_sublist c i n d rest (t + 1)

/-- With an unknown (non-positive) duration the stream emits no progress
at all: per-file reporting is suppressed. -/
lemma progressValues_readDiagLoop_nonpos (c : Option Nat) (i n : Nat) (d : ℚ)
    (hd : ¬ 0 < d) :
    ∀ (lines : List (Option TimeStamp)) (t : Nat),
      progressValues (readDiagLoop c i n d lines t).1 = []
  | [], t => by simp [readDiagLoop, progressValues_nil]
  | line :: rest, t => by
    have ih := progressValues_readDiagLoop_nonpos c i n d hd rest (t + 1)
    simp only [readDiagLoop, if_neg hd]
    split
    · simp [progressValues_nil]
    · split <;> exact ih

/-- Per-file progress summary: under well-behaved timestamps the emitted
values are non-decreasing and confined to the file's percentage band. -/
lemma readDiagLoop_progress_ok (c : Option Nat) (i n : Nat) (env : FileEnv)
    (hok : envTimesOK env) (hin : i < n) (t : Nat) :
    List.Pairwise (· ≤ ·)
      (progressValues (readDiagLoop c i n env.duration env.lines t).1) ∧
    ∀ x ∈ progressValues (readDiagLoop c i n env.duration env.lines t).1,
      fileLo i n ≤ x ∧ x ≤ fileHi i n := by
  have hn : 0 < n := lt_of_le_of_lt (Nat.zero_le i) hin
  by_cases hd : 0 < env.duration
  · have hsub := progressValues_readDiagLoop_sublist c i n env.duration env.lines t
    constructor
    · refine List.Pairwise.sublist hsub ?_
      refine List.Pairwise.map _ ?_ (List.pairwise_map.mp hok.1)
      intro a b hab
      exact overallPct_mono i n env.duration a b hn hd hab
    · intro x hx
      obtain ⟨ts, hts, rfl⟩ := List.mem_map.mp (hsub.subset hx)
      exact overallPct_bounds i n env.duration ts hin hd (hok.2 hd ts hts)
  · rw [progressValues_readDiagLoop_nonpos c i n env.duration hd env.lines t]
    exact ⟨List.Pairwise.nil, by simp⟩

/-- Batch-level progress summary for the extract file loop: under
well-behaved per-file timestamps the emitted percentages from file `i`
onward are non-decreasing and lie between file `i`'s lower band and 100. -/
lemma extractLoop_progress_ok (fp od : String) (settings : Settings)
    (c : Option Nat) (n : Nat) :
    ∀ (files : List (MediaFile × FileEnv)) (i t : Nat),
      (∀ p ∈ files, envTimesOK p.2) → i + files.length = n →
      List.Pairwise (· ≤ ·)
        (progressValues (extractLoop fp od settings c n files i t).evs) ∧
      ∀ x ∈ progressValues (extractLoop fp od settings c n files i t).evs,
        fileLo i n ≤ x ∧ x ≤ 100
  | [], i, t => by
    intro _ _
    simp [extractLoop, progressValues_nil]
  | (f, env) :: rest, i, t => by
    intro hok hlen
    have hin : i < n := by
      simp only [List.length_cons] at hlen
      omega
    have hinner := readDiagLoop_progress_ok c i n env
      (hok (f, env) (List.mem_cons_self _ _)) hin (t + 1)
    have hrest : ∀ t', List.Pairwise (· ≤ ·)
        (progressValues (extractLoop fp od settings c n rest (i + 1) t').evs) ∧
        ∀ x ∈ progressValues (extractLoop fp od settings c n rest (i + 1) t').evs,
          fileLo (i + 1) n ≤ x ∧ x ≤ 100 := fun t' =>
      extractLoop_progress_ok fp od settings c n rest (i + 1) t'
        (fun p hp => hok p (List.mem_cons_of_mem _ hp))
        (by simp only [List.length_cons] at hlen; omega)
    have hcross : ∀ x ∈ progressValues
        (readDiagLoop c i n env.duration env.lines (t + 1)).1,
        ∀ y, fileLo (i + 1) n ≤ y → x ≤ y := by
      intro x hx y hy
      have hxhi := ((hinner.2 x hx).2).trans_eq (fileHi_eq_fileLo_succ i n)
      exact hxhi.trans hy
    have hband : ∀ x ∈ progressValues
        (readDiagLoop c i n env.duration env.lines (t + 1)).1,
        fileLo i n ≤ x ∧ x ≤ 100 := by
      intro x hx
      exact ⟨(hinner.2 x hx).1,
        ((hinner.2 x hx).2).trans (fileHi_le_100 i n hin)⟩
    simp only [extractLoop]
    split
    · simp [progressValues_nil]
    · split
      · split
        · -- non-zero exit, cancellation observed after the stream: continue
          constructor
          · simp only [progressValues_append, progressValues_cons_status,
              progressValues_cons_spawn, progressValues_ite_status,
              List.cons_append, List.nil_append, List.append_assoc]
            rw [List.pairwise_append]
            exact ⟨hinner.1, (hrest _).1,
              fun x hx y hy => hcross x hx y ((hrest _).2 y hy).1⟩
          · intro x hx
            simp only [progressValues_append, progressValues_cons_status,
              progressValues_cons_spawn, progressValues_ite_status,
              List.cons_append, List.nil_append, List.append_assoc,
              List.mem_append] at hx
            rcases hx with hx | hx
            · exact hband x hx
            · refine ⟨?_, ((hrest _).2 x hx).2⟩
              exact (fileLo_mono n (lt_of_le_of_lt (Nat.zero_le i) hin)
                (Nat.le_succ i)).trans ((hrest _).2 x hx).1
        · -- non-zero exit, no cancellation: failure event and halt
          constructor
          · simp only [progressValues_append, progressValues_cons_status,
              progressValues_cons_spawn, progressValues_cons_completed,
              progressValues_ite_status, progressValues_nil, List.cons_append,
              List.nil_append, List.append_assoc, List.append_nil]
            simpa using hinner.1
          · intro x hx
            simp only [progressValues_append, progressValues_cons_status,
              progressValues_cons_spawn, progressValues_cons_completed,
              progressValues_ite_status, List.cons_append, List.nil_append,
              List.append_assoc, List.append_nil, progressValues_nil] at hx
            exact hband x (by simpa using hx)
      · -- clean exit: continue with the next file
        constructor
        · simp only [progressValues_append, progressValues_cons_status,
            progressValues_cons_spawn, progressValues_ite_status,
            List.cons_append, List.nil_append, List.append_assoc]
          rw [List.pairwise_append]
          exact ⟨hinner.1, (hrest _).1,
            fun x hx y hy => hcross x hx y ((hrest _).2 y hy).1⟩
        · intro x hx
          simp only [progressValues_append, progressValues_cons_status,
            progressValues_cons_spawn, progressValues_ite_status,
            List.cons_append, List.nil_append, List.append_assoc,
            List.mem_append] at hx
          rcases hx with hx | hx
          · exact hband x hx
          · refine ⟨?_, ((hrest _).2 x hx).2⟩
            exact (fileLo_mono n (lt_of_le_of_lt (Nat.zero_le i) hin)
              (Nat.le_succ i)).trans ((hrest _).2 x hx).1

/-- C2 (amended): within one extract job, provided every
transcoder-reported timestamp is at most the probed duration and the
timestamps of each file are non-decreasing, every emitted overall
percentage lies in [0, 100] and the emitted sequence is monotonically
non-decreasing (under any cancellation schedule).  The qualifier is
necessary: the code does not clamp, so a timestamp exceeding the probed
duration produces a value above 100 (see the counterexample). -/
theorem progress_monotone_and_bounded (fp od : String) (settings : Settings)
    (files : List (MediaFile × FileEnv)) (cancelAt : Option Nat)
    (h : ∀ p ∈ files, envTimesOK p.2) :
    List.Pairwise (· ≤ ·)
      (progressValues (extract_audio fp od settings files cancelAt).evs) ∧
    ∀ x ∈ progressValues (extract_audio fp od settings files cancelAt).evs,
      0 ≤ x ∧ x ≤ 100 := by
  have hloop := extractLoop_progress_ok fp od settings cancelAt files.length files 0 0 h
    (by simp)
  have hlo : fileLo 0 files.length = 0 := by
    unfold fileLo
    norm_num
  unfold extract_audio
  dsimp only
  split
  · exact ⟨hloop.1, fun x hx => ⟨hlo ▸ (hloop.2 x hx).1, (hloop.2 x hx).2⟩⟩
  · split
    · exact ⟨hloop.1, fun x hx => ⟨hlo ▸ (hloop.2 x hx).1, (hloop.2 x hx).2⟩⟩
    · constructor
      · simp only [progressValues_append, progressValues_cons_progress,
          progressValues_cons_completed, progressValues_nil]
        rw [List.pairwise_append]
        refine ⟨hloop.1, by simp, ?_⟩
        intro x hx y hy
        simp only [List.mem_singleton] at hy
        rw [hy]
        exact (hloop.2 x hx).2
      · intro x hx
        simp only [progressValues_append, progressValues_cons_progress,
          progressValues_cons_completed, progressValues_nil, List.mem_append] at hx
        rcases hx with hx | hx
        · exact ⟨hlo ▸ (hloop.2 x hx).1, (hloop.2 x hx).2⟩
        · simp only [List.mem_singleton] at hx
          rw [hx]
          norm_num

theorem progress_monotone_and_bounded_witness :
    List.Pairwise (· ≤ ·) (progressValues (extract_audio "ffmpeg" "/out" {}
      [({ path := "/v/a.mkv", filename := "a.mkv" },
        { duration := 2, lines := [some ⟨0, 0, 1, 0⟩], exitCode := 0 })] none).evs) ∧
    ∀ x ∈ progressValues (extract_audio "ffmpeg" "/out" {}
      [({ path := "/v/a.mkv", filename := "a.mkv" },
        { duration := 2, lines := [some ⟨0, 0, 1, 0⟩], exitCode := 0 })] none).evs,
      0 ≤ x ∧ x ≤ 100 :=
  progress_monotone_and_bounded "ffmpeg" "/out" {}
    [({ path := "/v/a.mkv", filename := "a.mkv" },
      { duration := 2, lines := [some ⟨0, 0, 1, 0⟩], exitCode := 0 })] none
    (by
      intro p hp
      rcases List.mem_singleton.mp hp with rfl
      constructor
      · simp
      · intro _ ts hts
        simp only [List.filterMap_cons, id, List.filterMap_nil, List.mem_singleton,
          Option.mem_def] at hts
        rw [hts]
        norm_num [timeStrToSeconds])

/-- C2 (counterexample): with a reported timestamp of two seconds against
a probed duration of one second, the single-file extract run emits 200 —
the value is not clamped into [0, 100] — and the success path then emits
100, so the emitted sequence [200, 100] is not monotonically
non-decreasing either. -/
theorem progress_not_clamped_on_overrun :
    progressValues (extract_audio "ffmpeg" "/out" {}
      [({ path := "/v/a.mkv", filename := "a.mkv" },
        { duration := 1, lines := [some ⟨0, 0, 2, 0⟩], exitCode := 0 })] none).evs =
      [200, 100] ∧
    ¬ (∀ x ∈ progressValues (extract_audio "ffmpeg" "/out" {}
      [({ path := "/v/a.mkv", filename := "a.mkv" },
        { duration := 1, lines := [some ⟨0, 0, 2, 0⟩], exitCode := 0 })] none).evs,
        x ≤ 100) ∧
    ¬ List.Pairwise (· ≤ ·)
      (progressValues (extract_audio "ffmpeg" "/out" {}
        [({ path := "/v/a.mkv", filename := "a.mkv" },
          { duration := 1, lines := [some ⟨0, 0, 2, 0⟩], exitCode := 0 })] none).evs) := by
  have h : progressValues (extract_audio "ffmpeg" "/out" {}
      [({ path := "/v/a.mkv", filename := "a.mkv" },
        { duration := 1, lines := [some ⟨0, 0, 2, 0⟩], exitCode := 0 })] none).evs =
      [200, 100] := by
    simp [extract_audio, extractLoop, readDiagLoop, cancelledAt, progressValues,
      overallPct, pyInt, timeStrToSeconds]
    norm_num
  refine ⟨h, ?_, ?_⟩
  · rw [h]
    decide
  · rw [h]
    decide

/-- C1 (amended): in an extract batch under a cancellation schedule that
the run observes (the flag turns true at poll `k` before the run's final
read), every emitted event — commands included — precedes the observation
(its clock is at most `k`), so no command is issued for any remaining
file; and the run emits no completion event at all: in particular it never
reports a "completed" outcome, but it also does not emit the single
terminal "cancelled" event the original claim requires. -/
theorem observed_cancellation_silences_run (fp od : String) (settings : Settings)
    (files : List (MediaFile × FileEnv)) (k : Nat)
    (hobs : k < (extract_audio fp od settings files (some k)).clock) :
    (∀ p ∈ (extract_audio fp od settings files (some k)).evs, p.1 ≤ k) ∧
    completedEvents (extract_audio fp od settings files (some k)).evs = [] := by
  unfold extract_audio at *
  dsimp only at *
  split at hobs
  · rename_i hh
    exact absurd hobs (not_lt.mpr (extractLoop_halted_clock_le fp od settings k
      files.length files 0 0 hh))
  · rename_i hh
    split at hobs
    · rw [if_neg (by simpa using hh), if_pos (by assumption)]
      exact ⟨extractLoop_times_le fp od settings k files.length files 0 0,
        extractLoop_no_completed_of_not_halted fp od settings (some k) files.length
          files 0 0 (by simpa using hh)⟩
    · rename_i hc
      have : ¬ k <
          (extractLoop fp od settings (some k) files.length files 0 0).clock + 1 := by
        have : ¬ k ≤ (extractLoop fp od settings (some k) files.length files 0 0).clock := by
          simpa [cancelledAt] using hc
        omega
      exact absurd hobs this

theorem observed_cancellation_silences_run_witness :
    (2 : Nat) < (extract_audio "ffmpeg" "/out" {}
      [({ path := "/v/a.mkv", filename := "a.mkv" }, { duration := 0, lines := [], exitCode := 0 }),
       ({ path := "/v/b.mkv", filename := "b.mkv" }, { duration := 0, lines := [], exitCode := 0 }),
       ({ path := "/v/c.mkv", filename := "c.mkv" }, { duration := 0, lines := [], exitCode := 0 }),
       ({ path := "/v/d.mkv", filename := "d.mkv" }, { duration := 0, lines := [], exitCode := 0 }),
       ({ path := "/v/e.mkv", filename := "e.mkv" }, { duration := 0, lines := [], exitCode := 0 })]
      (some 2)).clock ∧
    completedEvents (extract_audio "ffmpeg" "/out" {}
      [({ path := "/v/a.mkv", filename := "a.mkv" }, { duration := 0, lines := [], exitCode := 0 }),
       ({ path := "/v/b.mkv", filename := "b.mkv" }, { duration := 0, lines := [], exitCode := 0 }),
       ({ path := "/v/c.mkv", filename := "c.mkv" }, { duration := 0, lines := [], exitCode := 0 }),
       ({ path := "/v/d.mkv", filename := "d.mkv" }, { duration := 0, lines := [], exitCode := 0 }),
       ({ path := "/v/e.mkv", filename := "e.mkv" }, { duration := 0, lines := [], exitCode := 0 })]
      (some 2)).evs = [] :=
  ⟨by decide,
   (observed_cancellation_silences_run "ffmpeg" "/out" {}
     [({ path := "/v/a.mkv", filename := "a.mkv" }, { duration := 0, lines := [], exitCode := 0 }),
      ({ path := "/v/b.mkv", filename := "b.mkv" }, { duration := 0, lines := [], exitCode := 0 }),
      ({ path := "/v/c.mkv", filename := "c.mkv" }, { duration := 0, lines := [], exitCode := 0 }),
      ({ path := "/v/d.mkv", filename := "d.mkv" }, { duration := 0, lines := [], exitCode := 0 }),
      ({ path := "/v/e.mkv", filename := "e.mkv" }, { duration := 0, lines := [], exitCode := 0 })]
     2 (by decide)).2⟩

/-- C1 (counterexample): a five-file extract batch cancelled right after
the second file completes issues commands for the first two files only,
and then terminates with NO completion event at all — zero terminal
events, not the single terminal "cancelled" completion the claim asserts
(the success branch is correctly skipped, but nothing is emitted in its
place). -/
theorem cancelled_run_emits_no_terminal_event :
    spawnedCmds (extract_audio "ffmpeg" "/out" {}
      [({ path := "/v/a.mkv", filename := "a.mkv" }, { duration := 0, lines := [], exitCode := 0 }),
       ({ path := "/v/b.mkv", filename := "b.mkv" }, { duration := 0, lines := [], exitCode := 0 }),
       ({ path := "/v/c.mkv", filename := "c.mkv" }, { duration := 0, lines := [], exitCode := 0 }),
       ({ path := "/v/d.mkv", filename := "d.mkv" }, { duration := 0, lines := [], exitCode := 0 }),
       ({ path := "/v/e.mkv", filename := "e.mkv" }, { duration := 0, lines := [], exitCode := 0 })]
      (some 2)).evs =
      [["ffmpeg", "-i", "/v/a.mkv", "-vn", "-acodec", "aac", "-y", "/out/a.aac"],
       ["ffmpeg", "-i", "/v/b.mkv", "-vn", "-acodec", "aac", "-y", "/out/b.aac"]] ∧
    (completedEvents (extract_audio "ffmpeg" "/out" {}
      [({ path := "/v/a.mkv", filename := "a.mkv" }, { duration := 0, lines := [], exitCode := 0 }),
       ({ path := "/v/b.mkv", filename := "b.mkv" }, { duration := 0, lines := [], exitCode := 0 }),
       ({ path := "/v/c.mkv", filename := "c.mkv" }, { duration := 0, lines := [], exitCode := 0 }),
       ({ path := "/v/d.mkv", filename := "d.mkv" }, { duration := 0, lines := [], exitCode := 0 }),
       ({ path := "/v/e.mkv", filename := "e.mkv" }, { duration := 0, lines := [], exitCode := 0 })]
      (some 2)).evs).length = 0 :=
  ⟨by decide, by decide⟩

/-- C10 (amended): with no cancellation, when every file before some file
exits cleanly and that file's transcoder exits non-zero, the batch spawns
commands only for the clean prefix and the failing file — no remaining
file is processed — and terminates with exactly one failure completion
event; the event's message names the offending file but, contrary to the
original claim, carries neither the failed command nor any captured
diagnostic output (it is the fixed string "Failed to extract from
FILENAME.\n"). -/
theorem transcoder_failure_halts_batch (fp od : String) (settings : Settings)
    (pre post : List (MediaFile × FileEnv)) (f : MediaFile) (env : FileEnv)
    (hpre : ∀ p ∈ pre, p.2.exitCode = 0) (henv : env.exitCode ≠ 0) :
    completedEvents (extract_audio fp od settings (pre ++ (f, env) :: post) none).evs =
      [(extractFailMsg f.filename, false)] ∧
    spawnedCmds (extract_audio fp od settings (pre ++ (f, env) :: post) none).evs =
      (pre ++ [(f, env)]).map (fun p => build_extract_audio_cmd fp od settings p.1) := by
  have h := extractLoop_fail_first fp od settings (pre ++ (f, env) :: post).length
    f env post henv pre 0 0 hpre
  unfold extract_audio
  dsimp only
  rw [if_pos h.2.2]
  exact ⟨h.1, h.2.1⟩

theorem transcoder_failure_halts_batch_witness :
    completedEvents (extract_audio "ffmpeg" "/out" {}
      ([({ path := "/v/a.mkv", filename := "a.mkv" }, { duration := 0, lines := [], exitCode := 0 })] ++
        ({ path := "/v/b.mkv", filename := "b.mkv" }, { duration := 0, lines := [], exitCode := 1 }) ::
        [({ path := "/v/c.mkv", filename := "c.mkv" }, { duration := 0, lines := [], exitCode := 0 })])
      none).evs = [(extractFailMsg "b.mkv", false)] ∧
    spawnedCmds (extract_audio "ffmpeg" "/out" {}
      ([({ path := "/v/a.mkv", filename := "a.mkv" }, { duration := 0, lines := [], exitCode := 0 })] ++
        ({ path := "/v/b.mkv", filename := "b.mkv" }, { duration := 0, lines := [], exitCode := 1 }) ::
        [({ path := "/v/c.mkv", filename := "c.mkv" }, { duration := 0, lines := [], exitCode := 0 })])
      none).evs =
      [["ffmpeg", "-i", "/v/a.mkv", "-vn", "-acodec", "aac", "-y", "/out/a.aac"],
       ["ffmpeg", "-i", "/v/b.mkv", "-vn", "-acodec", "aac", "-y", "/out/b.aac"]] := by
  have h := transcoder_failure_halts_batch "ffmpeg" "/out" {}
    [({ path := "/v/a.mkv", filename := "a.mkv" }, { duration := 0, lines := [], exitCode := 0 })]
    [({ path := "/v/c.mkv", filename := "c.mkv" }, { duration := 0, lines := [], exitCode := 0 })]
    { path := "/v/b.mkv", filename := "b.mkv" } { duration := 0, lines := [], exitCode := 1 }
    (by decide) (by decide)
  refine ⟨h.1, ?_⟩
  rw [h.2]
  decide

/-- C10 (counterexample): two single-file extract batches that fail on the
same file but with different commands (aac versus mp3 jobs) and different
captured stderr streams emit the identical terminal failure event — the
fixed message "Failed to extract from a.mkv.\n" — even though their
spawned commands differ, so the failure report carries neither the failed
command nor the captured diagnostic output. -/
theorem extract_failure_report_lacks_command_and_output :
    completedEvents (extract_audio "ffmpeg" "/out" { format := some "aac" }
      [({ path := "/v/a.mkv", filename := "a.mkv" },
        { duration := 0, lines := [none], exitCode := 1 })] none).evs =
      [("Failed to extract from a.mkv.\n", false)] ∧
    completedEvents (extract_audio "ffmpeg" "/out" { format := some "mp3" }
      [({ path := "/v/a.mkv", filename := "a.mkv" },
        { duration := 0, lines := [none, none], exitCode := 2 })] none).evs =
      [("Failed to extract from a.mkv.\n", false)] ∧
    spawnedCmds (extract_audio "ffmpeg" "/out" { format := some "aac" }
      [({ path := "/v/a.mkv", filename := "a.mkv" },
        { duration := 0, lines := [none], exitCode := 1 })] none).evs ≠
    spawnedCmds (extract_audio "ffmpeg" "/out" { format := some "mp3" }
      [({ path := "/v/a.mkv", filename := "a.mkv" },
        { duration := 0, lines := [none, none], exitCode := 2 })] none).evs :=
  ⟨by decide, by decide, by decide⟩

/-- C3: merge and embed jobs dispatch command building to the attribute
names _build_merge_audio_cmd and _build_embed_subtitles_cmd, which do not
exist on FFmpegWorker (the defined builders are build_merge_audio_cmd and
build_embed_subtitles_cmd); consequently, in any merge or embed run no
transcoder process is ever spawned, and whenever at least one companion
file matches a video (and no cancellation intervenes), the lookup raises
and run reports it as the single failure completion event. -/
theorem merge_embed_missing_builder_attribute :
    "_build_merge_audio_cmd" ∉ workerMethodNames ∧
    "build_merge_audio_cmd" ∈ workerMethodNames ∧
    "_build_embed_subtitles_cmd" ∉ workerMethodNames ∧
    "build_embed_subtitles_cmd" ∈ workerMethodNames ∧
    (∀ (settings : Settings) (files : List (MediaFile × FileEnv)) (c : Option Nat),
      spawnedCmds (merge_audio settings files c).evs = [] ∧
      spawnedCmds (embed_subtitles settings files c).evs = []) ∧
    (∀ (settings : Settings) (files : List (MediaFile × FileEnv)),
      (∃ p ∈ files,
        (matchingCompanions p.1.path (settings.audio_files.getD [])).isEmpty = false) →
      completedEvents (merge_audio settings files none).evs =
        [(runErrorMsg (attributeErrorMsg "_build_merge_audio_cmd"), false)]) ∧
    (∀ (settings : Settings) (files : List (MediaFile × FileEnv)),
      (∃ p ∈ files,
        (matchingCompanions p.1.path (settings.subtitle_files.getD [])).isEmpty = false) →
      completedEvents (embed_subtitles settings files none).evs =
        [(runErrorMsg (attributeErrorMsg "_build_embed_subtitles_cmd"), false)]) := by
  have hmergeS : ∀ (settings : Settings) (c : Option Nat) (files : List (MediaFile × FileEnv))
      (i t : Nat), spawnedCmds (mergeLoop settings c files.length files i t).evs = [] := by
    intro settings c files i t
    refine List.filterMap_eq_nil_iff.mpr ?_
    intro p hp
    obtain ⟨m, hm⟩ := mergeLoop_events_status settings c files.length files i t p hp
    rw [hm]
  have hembedS : ∀ (settings : Settings) (c : Option Nat) (files : List (MediaFile × FileEnv))
      (i t : Nat), spawnedCmds (embedLoop settings c files.length files i t).evs = [] := by
    intro settings c files i t
    refine List.filterMap_eq_nil_iff.mpr ?_
    intro p hp
    obtain ⟨m, hm⟩ := embedLoop_events_status settings c files.length files i t p hp
    rw [hm]
  have hmergeC : ∀ (settings : Settings) (c : Option Nat) (files : List (MediaFile × FileEnv))
      (i t : Nat), completedEvents (mergeLoop settings c files.length files i t).evs = [] := by
    intro settings c files i t
    refine List.filterMap_eq_nil_iff.mpr ?_
    intro p hp
    obtain ⟨m, hm⟩ := mergeLoop_events_status settings c files.length files i t p hp
    rw [hm]
  have hembedC : ∀ (settings : Settings) (c : Option Nat) (files : List (MediaFile × FileEnv))
      (i t : Nat), completedEvents (embedLoop settings c files.length files i t).evs = [] := by
    intro settings c files i t
    refine List.filterMap_eq_nil_iff.mpr ?_
    intro p hp
    obtain ⟨m, hm⟩ := embedLoop_events_status settings c files.length files i t p hp
    rw [hm]
  refine ⟨by decide, by decide, by decide, by decide, ?_, ?_, ?_⟩
  · intro settings files c
    constructor
    · unfold merge_audio
      dsimp only
      split
      · rw [spawnedCmds_append, hmergeS]
        rfl
      · split
        · exact hmergeS ..
        · rw [spawnedCmds_append, hmergeS]
          rfl
    · unfold embed_subtitles
      dsimp only
      split
      · rw [spawnedCmds_append, hembedS]
        rfl
      · split
        · exact hembedS ..
        · rw [spawnedCmds_append, hembedS]
          rfl
  · intro settings files h
    unfold merge_audio
    dsimp only
    rw [mergeLoop_exc_of_match settings files.length files 0 0 h]
    rw [completedEvents_append, hmergeC]
    rfl
  · intro settings files h
    unfold embed_subtitles
    dsimp only
    rw [embedLoop_exc_of_match settings files.length files 0 0 h]
    rw [completedEvents_append, hembedC]
    rfl

theorem merge_embed_missing_builder_attribute_witness :
    completedEvents (merge_audio { audio_files := some ["/a/video.eng.aac"] }
      [({ path := "/v/video.mkv", filename := "video.mkv" },
        { duration := 1, lines := [], exitCode := 0 })] none).evs =
      [(runErrorMsg (attributeErrorMsg "_build_merge_audio_cmd"), false)] ∧
    completedEvents (embed_subtitles { subtitle_files := some ["/s/video.eng.srt"] }
      [({ path := "/v/video.mkv", filename := "video.mkv" },
        { duration := 1, lines := [], exitCode := 0 })] none).evs =
      [(runErrorMsg (attributeErrorMsg "_build_embed_subtitles_cmd"), false)] :=
  ⟨merge_embed_missing_builder_attribute.2.2.2.2.2.1
    { audio_files := some ["/a/video.eng.aac"] }
    [({ path := "/v/video.mkv", filename := "video.mkv" },
      { duration := 1, lines := [], exitCode := 0 })]
    ⟨_, List.mem_singleton.mpr rfl, by decide⟩,
   merge_embed_missing_builder_attribute.2.2.2.2.2.2
    { subtitle_files := some ["/s/video.eng.srt"] }
    [({ path := "/v/video.mkv", filename := "video.mkv" },
      { duration := 1, lines := [], exitCode := 0 })]
    ⟨_, List.mem_singleton.mpr rfl, by decide⟩⟩

/-- C6: the extract command builder, for format aac on input /v/video.mkv
with output directory /out, returns exactly
[tool, -i, /v/video.mkv, -vn, -acodec, aac, -y, /out/video.aac]; for
format mp3 the codec argument is the library encoder name libmp3lame, not
copy. -/
theorem extract_cmd_aac_exact_and_mp3_encoder (tool : String) :
    build_extract_audio_cmd tool "/out" { format := some "aac" }
      { path := "/v/video.mkv", filename := "video.mkv" } =
      [tool, "-i", "/v/video.mkv", "-vn", "-acodec", "aac", "-y", "/out/video.aac"] ∧
    build_extract_audio_cmd tool "/out" { format := some "mp3" }
      { path := "/v/video.mkv", filename := "video.mkv" } =
      [tool, "-i", "/v/video.mkv", "-vn", "-acodec", "libmp3lame", "-y", "/out/video.mp3"] ∧
    ("libmp3lame" : String) ≠ "copy" :=
  ⟨rfl, rfl, by decide⟩

/-- C7: the merge command builder with preserve_original true, one video
and two matched audio companions with languages [eng, ger], produces the
map arguments 0, -0:a, 1:a, 2:a in that order, the metadata arguments
-metadata:s:a:0 language=eng and -metadata:s:a:1 language=ger,
stream-copies everything (-c copy), and outputs to
output_dir/stem_merged.mkv. -/
theorem merge_cmd_preserve_two_audio (tool : String) :
    build_merge_audio_cmd tool "/out" { preserve_original := some true }
      { path := "/v/video.mkv", filename := "video.mkv" }
      ["/a/video.eng.aac", "/a/video.ger.aac"] ["eng", "ger"] =
      [tool, "-i", "/v/video.mkv", "-i", "/a/video.eng.aac", "-i", "/a/video.ger.aac",
       "-map", "0", "-map", "-0:a", "-map", "1:a", "-map", "2:a",
       "-metadata:s:a:0", "language=eng", "-metadata:s:a:1", "language=ger",
       "-c", "copy", "-y", "/out/video_merged.mkv"] :=
  rfl

/-- C8: companion matching is symmetric (swapping the two stems gives the
same boolean), the predicate is case-insensitive substring containment in
either direction rather than equality (witnessed by the unequal pair
Movie / movie_eng), and every matching candidate is kept in the filtered
result, with no uniqueness constraint (membership is preserved even for
duplicate entries, since the result is a plain filter). -/
theorem companion_matching_symmetric :
    (∀ a b : String, companionMatches a b = companionMatches b a) ∧
    (∀ (v : String) (files : List String) (x : String), x ∈ files →
      companionMatches (pathStem v) (pathStem x) = true →
      x ∈ matchingCompanions v files) ∧
    companionMatches "Movie" "movie_eng" = true ∧ ("Movie" : String) ≠ "movie_eng" := by
  refine ⟨?_, ?_, by decide, by decide⟩
  · intro a b
    unfold companionMatches
    exact Bool.or_comm _ _
  · intro v files x hx hm
    unfold matchingCompanions
    exact List.mem_filter.mpr ⟨hx, hm⟩

theorem companion_matching_symmetric_witness :
    companionMatches "show s01e03" "Show" = companionMatches "Show" "show s01e03" ∧
    "/a/movie_eng.aac" ∈ matchingCompanions "/v/Movie.mkv" ["/a/movie_eng.aac"] :=
  ⟨companion_matching_symmetric.1 "show s01e03" "Show",
   companion_matching_symmetric.2.1 "/v/Movie.mkv" ["/a/movie_eng.aac"]
     "/a/movie_eng.aac" (by decide) (by decide)⟩

/-- C4 (failing input): the extraction used during rename execution is
FFmpegWorker.extract_season_episode, whose digit groups are capped at two
digits, so "S01E999" yields (1, 99) there — not (1, 999) as the claim,
the spec, and the repository test-suite state; the tested
utils.extract_season_episode (also used by the renaming tab preview) does
return (1, 999), so preview and execution disagree on such names. -/
theorem rename_execution_extraction_caps_episode_digits :
    Worker.extract_season_episode "S01E999" = (some 1, some 99) ∧
    Worker.extract_season_episode "S01E999" ≠ (some 1, some 999) ∧
    Utils.extract_season_episode "S01E999" = (some 1, some 999) :=
  ⟨by decide, by decide, by decide⟩

/-- C5: "Show.S02E05.mkv" extracts to (2, 5) and "NoMatch.mkv" to
(none, none); the four patterns are tried in fixed priority order — when
the SxxEyy search succeeds its captures are returned and later patterns
are never consulted, each later pattern is consulted only when all
earlier searches fail, and when all four fail the result is (none, none);
"1x2 S03E04" resolves via the first pattern to (3, 4) even though the
second pattern also matches. -/
theorem season_episode_extraction_priority :
    Worker.extract_season_episode "Show.S02E05.mkv" = (some 2, some 5) ∧
    Worker.extract_season_episode "NoMatch.mkv" = (none, none) ∧
    (∀ (s : String) (r : Nat × Nat),
      reSearch Worker.matchP1At s.data = some r →
      Worker.extract_season_episode s = (some r.1, some r.2)) ∧
    (∀ (s : String) (r : Nat × Nat),
      reSearch Worker.matchP1At s.data = none →
      reSearch Worker.matchP2At s.data = some r →
      Worker.extract_season_episode s = (some r.1, some r.2)) ∧
    (∀ (s : String) (r : Nat × Nat),
      reSearch Worker.matchP1At s.data = none →
      reSearch Worker.matchP2At s.data = none →
      reSearch Worker.matchP3At s.data = some r →
      Worker.extract_season_episode s = (some r.1, some r.2)) ∧
    (∀ (s : String) (r : Nat × Nat),
      reSearch Worker.matchP1At s.data = none →
      reSearch Worker.matchP2At s.data = none →
      reSearch Worker.matchP3At s.data = none →
      reSearch Worker.matchP4At s.data = some r →
      Worker.extract_season_episode s = (some r.1, some r.2)) ∧
    (∀ s : String,
      reSearch Worker.matchP1At s.data = none →
      reSearch Worker.matchP2At s.data = none →
      reSearch Worker.matchP3At s.data = none →
      reSearch Worker.matchP4At s.data = none →
      Worker.extract_season_episode s = (none, none)) ∧
    Worker.extract_season_episode "1x2 S03E04" = (some 3, some 4) := by
  refine ⟨by decide, by decide, ?_, ?_, ?_, ?_, ?_, by decide⟩
  · intro s r h1
    unfold Worker.extract_season_episode
    rw [h1]
  · intro s r h1 h2
    unfold Worker.extract_season_episode
    rw [h1, h2]
  · intro s r h1 h2 h3
    unfold Worker.extract_season_episode
    rw [h1, h2, h3]
  · intro s r h1 h2 h3 h4
    unfold Worker.extract_season_episode
    rw [h1, h2, h3, h4]
  · intro s h1 h2 h3 h4
    unfold Worker.extract_season_episode
    rw [h1, h2, h3, h4]

theorem season_episode_extraction_priority_witness :
    Worker.extract_season_episode "Show.S02E05.mkv" = (some 2, some 5) ∧
    Worker.extract_season_episode "Movie.720p.mkv" = (none, none) :=
  ⟨season_episode_extraction_priority.2.2.1 "Show.S02E05.mkv" (2, 5) (by decide),
   season_episode_extraction_priority.2.2.2.2.2.2.1 "Movie.720p.mkv"
     (by decide) (by decide) (by decide) (by decide)⟩

/-- C9: whenever substitution of the selected template fails (unknown
token, bad spec, unbalanced brace), build_new_filename returns exactly the
deterministic fallback — the sanitized name, a literal " - S", the
zero-padded season, "E", the zero-padded episode, and the original
extension; the fallback is a total string computation, so it never fails
for any season/episode naturals and extension string, and the rendering
error never escapes build_new_filename. -/
theorem template_failure_falls_back (showName episodeTitle extension : String)
    (season episode : Nat) (settings : Settings) (e : String)
    (hfail : renderTemplate
      (fmtEnv (sanitizeName showName) season episode
        (if episodeTitle ≠ "" then sanitizeName episodeTitle else "")
        extension (yearOf (sanitizeName showName)))
      (settings.filename_template.getD defaultFilenameTemplate) = .error e) :
    build_new_filename showName season episode episodeTitle extension settings =
      sanitizeName showName ++ " - S" ++ padLeft '0' 2 (toString season) ++ "E" ++
        padLeft '0' 2 (toString episode) ++ extension := by
  unfold build_new_filename
  dsimp only
  rw [hfail]
  rfl

theorem template_failure_falls_back_witness :
    renderTemplate
      (fmtEnv (sanitizeName "Show") 1 2
        (if ("Pilot" : String) ≠ "" then sanitizeName "Pilot" else "")
        ".mkv" (yearOf (sanitizeName "Show")))
      ((Settings.filename_template { filename_template := some "\x7bunknown\x7d" }).getD
        defaultFilenameTemplate) = .error "KeyError: unknown" ∧
    build_new_filename "Show" 1 2 "Pilot" ".mkv"
      { filename_template := some "\x7bunknown\x7d" } = "Show - S01E02.mkv" := by
  refine ⟨rfl, ?_⟩
  rw [template_failure_falls_back "Show" "Pilot" ".mkv" 1 2
    { filename_template := some "\x7bunknown\x7d" } "KeyError: unknown" rfl]
  decide

end EchoMux
